import Mathlib

/-!
Verification of the pyMOR tutorial "Model order reduction with artificial
neural networks" (files src/unnamed/part_000 and src/unnamed/part_001).

The repository contains the tutorial text and its code cells; the pyMOR
library routines the cells invoke (NeuralNetworkReductor, the POD routine,
discretize_stationary_cg, the PyTorch training loop) live elsewhere in the
project and are modelled here from the words of the specification and the
tutorial narrative.  Third-party numerical routines (POD, network training)
are treated as opaque external components, passed in explicitly as the
record ExternalLibs, exactly as the specification describes them: the
reductor is a thin orchestration layer around them.
-/

/-! ## Vectors of rational scalars and basic linear algebra -/

/-- A finite-dimensional vector, as produced by the full-order solver. -/
abbrev Vec := List ℚ

/-- A parameter value mu (the tutorial uses a single scalar parameter). -/
abbrev Mu := ℚ

/-- Dot product of two vectors. -/
def dot (u v : Vec) : ℚ := (List.zipWith (· * ·) u v).sum

/-- Componentwise sum of two vectors. -/
def vecAdd (u v : Vec) : Vec := List.zipWith (· + ·) u v

/-- Scalar multiple of a vector. -/
def scale (c : ℚ) (u : Vec) : Vec := u.map (fun x => c * x)

/-- The zero vector of a given dimension. -/
def zeros (n : ℕ) : Vec := List.replicate n 0

/-! ## Feedforward neural networks

Modelled from the spec: the tutorial narrative describes a feedforward
neural network as layers in which the weights are multiplied with the
inputs and summed up, a bias is added, and an activation function is
applied before passing the values to the following layer. -/

/-- One layer of a feedforward network: a weight matrix (one row per
output neuron) and a bias vector. -/
structure Layer where
  weights : List Vec
  bias : Vec

/-- Applying a layer: multiply weights with inputs, sum up, add the bias. -/
def Layer.apply (l : Layer) (v : Vec) : Vec :=
  vecAdd (l.weights.map fun row => dot row v) l.bias

/-- A feedforward neural network: hidden layers followed by an output
layer, with an activation function applied after each hidden layer. -/
structure NeuralNetwork where
  hidden : List Layer
  output : Layer
  activation : ℚ → ℚ

/-- Forward pass of an input through the network. -/
def NeuralNetwork.forward (nn : NeuralNetwork) (x : Vec) : Vec :=
  nn.output.apply (nn.hidden.foldl (fun v l => (l.apply v).map nn.activation) x)

/-! ## The reduced order model returned by the reductor -/

/-- Modelled from the spec: the reduced order model produced by
NeuralNetworkReductor.reduce combines the POD reduced basis with the
trained network; its solve method performs a forward pass of the
parameter through the network to obtain the reduced coordinates. -/
structure NeuralNetworkModel where
  reduced_basis : List Vec
  dim : ℕ
  network : NeuralNetwork

/-- rom.solve(mu): forward pass of the parameter values through the
trained neural network, yielding the approximated reduced coordinates. -/
def NeuralNetworkModel.solve (rom : NeuralNetworkModel) (mu : Mu) : Vec :=
  rom.network.forward [mu]

/-- Modelled from the spec: reductor.reconstruct(u) maps the reduced
coefficient vector u back to the full space by multiplying it with the
stored reduced basis (entry j of the result is the sum over basis vectors
of coefficient times basis entry j). -/
def reconstruct (basis : List Vec) (dim : ℕ) (u : Vec) : Vec :=
  (List.range dim).map fun j => ((u.zip basis).map fun p => p.1 * p.2.getD j 0).sum

/-- The linear combination of the reduced-basis vectors with given
reduced coefficients, following the words of the spec. -/
def linearCombination (coeffs : Vec) (basis : List Vec) (dim : ℕ) : Vec :=
  (coeffs.zip basis).foldr (fun p acc => vecAdd (scale p.1 p.2) acc) (zeros dim)

/-! Auxiliary lemmas relating the matrix form of reconstruction to the
linear-combination form. -/

theorem map_range_getD (f : ℚ → ℚ) (b : Vec) :
    (List.range b.length).map (fun j => f (b.getD j 0)) = b.map f := by
  induction b with
  | nil => simp
  | cons x xs ih =>
    simp only [List.length_cons, List.range_succ_eq_map, List.map_cons, List.getD_cons_zero,
      List.map_map]
    refine congrArg (f x :: ·) ?_
    calc (List.range xs.length).map ((fun j => f ((x :: xs).getD j 0)) ∘ Nat.succ)
        = (List.range xs.length).map (fun j => f (xs.getD j 0)) := by
          refine List.map_congr_left fun j _ => ?_
          simp [List.getD_cons_succ]
      _ = xs.map f := ih

theorem zipWith_add_map_range (n : ℕ) (f g : ℕ → ℚ) :
    List.zipWith (· + ·) ((List.range n).map f) ((List.range n).map g)
      = (List.range n).map (fun j => f j + g j) := by
  induction n with
  | zero => simp
  | succ m ih =>
    simp only [List.range_succ, List.map_append, List.map_cons, List.map_nil]
    rw [List.zipWith_append _ _ _ _ _ (by simp), ih]
    simp

/-- Reconstruction equals the linear combination of the basis vectors
with the given coefficients, provided every basis vector has the ambient
dimension. -/
theorem reconstruct_eq_linearCombination (coeffs : Vec) (basis : List Vec) (dim : ℕ)
    (hb : ∀ b ∈ basis, b.length = dim) :
    reconstruct basis dim coeffs = linearCombination coeffs basis dim := by
  induction coeffs generalizing basis with
  | nil =>
    simp [reconstruct, linearCombination, zeros, List.map_const']
  | cons c cs ih =>
    cases basis with
    | nil =>
      simp [reconstruct, linearCombination, zeros, List.map_const']
    | cons b bs =>
      have hbdim : b.length = dim := hb b (List.mem_cons_self b bs)
      have hbs : ∀ v ∈ bs, v.length = dim := fun v hv => hb v (List.mem_cons_of_mem b hv)
      have hrec := ih bs hbs
      simp only [reconstruct, linearCombination, List.zip_cons_cons, List.map_cons,
        List.sum_cons, List.foldr_cons] at hrec ⊢
      rw [← hrec]
      have hscale : scale c b = (List.range dim).map (fun j => c * b.getD j 0) := by
        have := map_range_getD (fun x => c * x) b
        rw [hbdim] at this
        simpa [scale] using this.symm
      rw [hscale]
      simp only [vecAdd]
      rw [zipWith_add_map_range]

/-! ## The full-order model and the reductor

Modelled from the spec: the full-order model is a black box offering a
solve method; its operators are internal to the solver and are never
accessed by the reductor. -/

/-- The full-order model: a solve map from parameters to solution
vectors, the dimension of the solution space, and the internal operators
of the solver (opaque to the reductor). -/
structure FullOrderModel where
  solve : Mu → Vec
  dim : ℕ
  operators : List (Vec → Vec)

/-- The possible values of the ann_mse argument of the reductor: None, a
finite mean-squared-error tolerance, or like_basis. -/
inductive AnnMse
  | noTol
  | tol (eps : ℚ)
  | likeBasis

/-- The NeuralNetworkReductor, as constructed in the tutorial from the
full-order model, the training set, the validation set and the
tolerances l2_err and ann_mse. -/
structure NeuralNetworkReductor where
  fom : FullOrderModel
  training_set : List Mu
  validation_set : List Mu
  l2_err : ℚ
  ann_mse : AnnMse

/-- The outcome of one training run of the external training library:
the trained network, its mean squared error on the training set, and its
loss on the validation set. -/
structure TrainingResult where
  network : NeuralNetwork
  train_mse : ℚ
  val_loss : ℚ

/-- Modelled from the spec: the third-party routines the tutorial
delegates to — the proper-orthogonal-decomposition routine (returning a
reduced basis and its error from snapshots and the prescribed l2 error)
and the network training loop (returning, for a given restart index and
training/validation data, a trained network with its losses).  They are
opaque external components, so they are parameters of the development. -/
structure ExternalLibs where
  pod : List Vec → ℚ → List Vec × ℚ
  train : ℕ → List (Mu × Vec) → List (Mu × Vec) → TrainingResult

/-- Projection of a snapshot onto the reduced basis, giving its reduced
coefficients. -/
def project (basis : List Vec) (u : Vec) : Vec := basis.map fun b => dot b u

/-- The training data for the network: pairs of a training parameter and
the reduced coefficients of its snapshot. -/
def reducedData (red : NeuralNetworkReductor) (basis : List Vec) : List (Mu × Vec) :=
  red.training_set.map fun mu => (mu, project basis (red.fom.solve mu))

/-- The validation data for the network: pairs of a validation parameter
and the reduced coefficients of its snapshot. -/
def validationData (red : NeuralNetworkReductor) (basis : List Vec) : List (Mu × Vec) :=
  red.validation_set.map fun mu => (mu, project basis (red.fom.solve mu))

/-- Modelled from the spec: the training stage trains an initial network
and up to restarts further networks with different initial weights (the
restart index is passed to the external training routine). -/
def candidates (libs : ExternalLibs) (red : NeuralNetworkReductor) (basis : List Vec)
    (restarts : ℕ) : List TrainingResult :=
  (List.range (restarts + 1)).map fun k =>
    libs.train k (reducedData red basis) (validationData red basis)

/-- The reduced basis extracted by POD from the full-order snapshots of
the training parameters. -/
def basisOf (libs : ExternalLibs) (red : NeuralNetworkReductor) : List Vec :=
  (libs.pod (red.training_set.map red.fom.solve) red.l2_err).1

/-- The l2 error of the POD basis, used by the like_basis tolerance. -/
def basisErrOf (libs : ExternalLibs) (red : NeuralNetworkReductor) : ℚ :=
  (libs.pod (red.training_set.map red.fom.solve) red.l2_err).2

/-- The networks trained during reduce, for the POD basis of the reductor. -/
def candidatesOf (libs : ExternalLibs) (red : NeuralNetworkReductor) (restarts : ℕ) :
    List TrainingResult :=
  candidates libs red (basisOf libs red) restarts

/-- Modelled from the spec: reductor.reduce() first extracts a reduced
basis via POD from full-order solution snapshots of the training
parameters, then trains feedforward networks mapping parameters to
reduced coefficients.  With a finite tolerance (or like_basis), training
is aborted at the first network whose training mean squared error meets
the tolerance and, if the maximal number of restarts is reached without
one, no reduced order model is returned; with ann_mse set to None the
network with the best validation loss is selected.  The full-order model
is returned untouched in the second component. -/
def NeuralNetworkReductor.reduce (red : NeuralNetworkReductor) (libs : ExternalLibs)
    (restarts : ℕ) : Option NeuralNetworkModel × FullOrderModel :=
  let basis := basisOf libs red
  let cands := candidatesOf libs red restarts
  let target : Option ℚ :=
    match red.ann_mse with
    | AnnMse.noTol => none
    | AnnMse.tol eps => some eps
    | AnnMse.likeBasis => some (basisErrOf libs red)
  let best : Option TrainingResult :=
    match target with
    | some eps => cands.find? fun c => decide (c.train_mse ≤ eps)
    | none => cands.argmin fun c => c.val_loss
  (best.map fun c => ⟨basis, red.fom.dim, c.network⟩, red.fom)

/-- A small concrete network used to instantiate the theorems: no hidden
layers, a 2 by 1 output layer, identity activation. -/
def demoNetwork : NeuralNetwork :=
  ⟨[], ⟨[[1], [2]], [0, 0]⟩, fun x => x⟩

/-- C1: for every parameter mu, rom.solve(mu) performs a forward pass of
the parameter values through the trained neural network, and
reductor.reconstruct applied to the result returns exactly the linear
combination of the reduced-basis vectors with those reduced
coefficients. -/
theorem rom_solve_forward_reconstruct_lincomb
    (basis : List Vec) (dim : ℕ) (nn : NeuralNetwork) (mu : Mu)
    (hb : ∀ b ∈ basis, b.length = dim) :
    NeuralNetworkModel.solve ⟨basis, dim, nn⟩ mu = nn.forward [mu] ∧
    reconstruct basis dim (NeuralNetworkModel.solve ⟨basis, dim, nn⟩ mu)
      = linearCombination (nn.forward [mu]) basis dim :=
  ⟨rfl, reconstruct_eq_linearCombination _ _ _ hb⟩

/-- C1 witness: the theorem applied to a concrete basis, network and
parameter. -/
theorem rom_solve_forward_reconstruct_lincomb_witness :
    (∀ b ∈ [[(1 : ℚ), 0, 0], [0, 1, 0]], b.length = 3) ∧
    (NeuralNetworkModel.solve ⟨[[(1 : ℚ), 0, 0], [0, 1, 0]], 3, demoNetwork⟩ 2
        = demoNetwork.forward [2] ∧
      reconstruct [[(1 : ℚ), 0, 0], [0, 1, 0]] 3
          (NeuralNetworkModel.solve ⟨[[(1 : ℚ), 0, 0], [0, 1, 0]], 3, demoNetwork⟩ 2)
        = linearCombination (demoNetwork.forward [2]) [[(1 : ℚ), 0, 0], [0, 1, 0]] 3) :=
  ⟨by decide, rom_solve_forward_reconstruct_lincomb _ _ _ _ (by decide)⟩

/-! ## Concrete instances used by the witnesses -/

/-- A concrete full-order model of dimension 1. -/
def demoFom : FullOrderModel := ⟨fun mu => [mu], 1, []⟩

/-- Concrete external routines: POD returns the snapshots themselves
with error 0, training always returns the demo network with losses 0. -/
def demoLibs : ExternalLibs :=
  ⟨fun snaps _ => (snaps, 0), fun _ _ _ => ⟨demoNetwork, 0, 0⟩⟩

/-- A concrete reductor with a finite tolerance that the training meets. -/
def demoReductorTol : NeuralNetworkReductor :=
  ⟨demoFom, [1], [2], 1 / 100000, AnnMse.tol 1⟩

/-- A concrete reductor with a tolerance no training result can meet. -/
def demoReductorFail : NeuralNetworkReductor :=
  ⟨demoFom, [1], [2], 1 / 100000, AnnMse.tol (-1)⟩

/-- A concrete reductor with ann_mse set to None. -/
def demoReductorNone : NeuralNetworkReductor :=
  ⟨demoFom, [1], [2], 1 / 100000, AnnMse.noTol⟩

/-- C2: reduce() performs exactly two stages: the basis of the returned
reduced order model is the POD basis extracted from full-order solution
snapshots of the training parameters, and its network is one of the
networks trained on the parameter-to-reduced-coefficient data; the
returned object combines both. -/
theorem reduce_pod_then_train
    (red : NeuralNetworkReductor) (libs : ExternalLibs) (restarts : ℕ)
    (rom : NeuralNetworkModel)
    (h : (red.reduce libs restarts).1 = some rom) :
    rom.reduced_basis = basisOf libs red ∧
    rom.dim = red.fom.dim ∧
    ∃ c ∈ candidatesOf libs red restarts, rom.network = c.network := by
  cases hann : red.ann_mse with
  | noTol =>
    simp only [NeuralNetworkReductor.reduce, hann] at h
    rcases Option.map_eq_some'.mp h with ⟨c, hc, hrom⟩
    refine ⟨by rw [← hrom], by rw [← hrom], c, ?_, by rw [← hrom]⟩
    exact List.argmin_mem (Option.mem_def.mpr hc)
  | tol eps =>
    simp only [NeuralNetworkReductor.reduce, hann] at h
    rcases Option.map_eq_some'.mp h with ⟨c, hc, hrom⟩
    refine ⟨by rw [← hrom], by rw [← hrom], c, ?_, by rw [← hrom]⟩
    exact List.mem_of_find?_eq_some hc
  | likeBasis =>
    simp only [NeuralNetworkReductor.reduce, hann] at h
    rcases Option.map_eq_some'.mp h with ⟨c, hc, hrom⟩
    refine ⟨by rw [← hrom], by rw [← hrom], c, ?_, by rw [← hrom]⟩
    exact List.mem_of_find?_eq_some hc

/-- C2 witness: the two-stage description applied to a concrete run of
reduce that returns a model. -/
theorem reduce_pod_then_train_witness :
    (demoReductorTol.reduce demoLibs 0).1 = some ⟨[[(1 : ℚ)]], 1, demoNetwork⟩ ∧
    ((⟨[[(1 : ℚ)]], 1, demoNetwork⟩ : NeuralNetworkModel).reduced_basis
        = basisOf demoLibs demoReductorTol ∧
      (⟨[[(1 : ℚ)]], 1, demoNetwork⟩ : NeuralNetworkModel).dim = demoReductorTol.fom.dim ∧
      ∃ c ∈ candidatesOf demoLibs demoReductorTol 0,
        (⟨[[(1 : ℚ)]], 1, demoNetwork⟩ : NeuralNetworkModel).network = c.network) :=
  ⟨by rfl, reduce_pod_then_train demoReductorTol demoLibs 0 _ (by rfl)⟩

/-- find? returns the element at the first index satisfying the
predicate. -/
theorem find?_eq_some_of_first {α : Type} (p : α → Bool) (l : List α) (k : ℕ)
    (hk : k < l.length)
    (hbefore : ∀ j, (hj : j < l.length) → j < k → p l[j] = false)
    (hit : p l[k] = true) :
    l.find? p = some l[k] := by
  induction l generalizing k with
  | nil => simp at hk
  | cons a t ih =>
    cases k with
    | zero =>
      rw [List.getElem_cons_zero] at hit ⊢
      simp [List.find?_cons, hit]
    | succ m =>
      have ha : p a = false := by
        have := hbefore 0 (Nat.succ_pos _) (Nat.succ_pos m)
        rwa [List.getElem_cons_zero] at this
      have hm : m < t.length := Nat.lt_of_succ_lt_succ hk
      rw [List.getElem_cons_succ]
      rw [List.find?_cons, ha]
      refine ih m hm (fun j hj hjk => ?_) ?_
      · have := hbefore (j + 1) (Nat.succ_lt_succ hj) (Nat.succ_lt_succ hjk)
        rwa [List.getElem_cons_succ] at this
      · rwa [List.getElem_cons_succ] at hit

/-- C3: with a finite mean-squared-error tolerance, reduce aborts
training as soon as a network meeting the tolerance is found (the
returned model carries the network of the first restart meeting it), and
if the maximal number of restarts is reached without any network
fulfilling the tolerance, no reduced order model is returned (the none
sentinel of the Option convention). -/
theorem reduce_tol_first_hit_or_none
    (red : NeuralNetworkReductor) (libs : ExternalLibs) (restarts : ℕ) (eps : ℚ)
    (hmse : red.ann_mse = AnnMse.tol eps) :
    ((∀ c ∈ candidatesOf libs red restarts, ¬ c.train_mse ≤ eps) →
        (red.reduce libs restarts).1 = none) ∧
    (∀ k, (hk : k < (candidatesOf libs red restarts).length) →
      (∀ j, (hj : j < (candidatesOf libs red restarts).length) → j < k →
        ¬ ((candidatesOf libs red restarts)[j].train_mse ≤ eps)) →
      (candidatesOf libs red restarts)[k].train_mse ≤ eps →
      (red.reduce libs restarts).1
        = some ⟨basisOf libs red, red.fom.dim,
            (candidatesOf libs red restarts)[k].network⟩) := by
  constructor
  · intro hall
    simp only [NeuralNetworkReductor.reduce, hmse]
    rw [List.find?_eq_none.mpr fun c hc => by simpa using hall c hc]
    rfl
  · intro k hk hbefore hhit
    simp only [NeuralNetworkReductor.reduce, hmse]
    rw [find?_eq_some_of_first _ _ k hk
      (fun j hj hjk => by simpa using hbefore j hj hjk) (by simpa using hhit)]
    rfl

/-- C3 witness: the theorem applied to a concrete reductor with a finite
tolerance, together with a concrete run that fails the tolerance on
every restart and returns the none sentinel. -/
theorem reduce_tol_first_hit_or_none_witness :
    demoReductorTol.ann_mse = AnnMse.tol 1 ∧
    (demoReductorFail.reduce demoLibs 3).1 = none ∧
    (((∀ c ∈ candidatesOf demoLibs demoReductorTol 0, ¬ c.train_mse ≤ 1) →
        (demoReductorTol.reduce demoLibs 0).1 = none) ∧
      (∀ k, (hk : k < (candidatesOf demoLibs demoReductorTol 0).length) →
        (∀ j, (hj : j < (candidatesOf demoLibs demoReductorTol 0).length) → j < k →
          ¬ ((candidatesOf demoLibs demoReductorTol 0)[j].train_mse ≤ 1)) →
        (candidatesOf demoLibs demoReductorTol 0)[k].train_mse ≤ 1 →
        (demoReductorTol.reduce demoLibs 0).1
          = some ⟨basisOf demoLibs demoReductorTol, demoReductorTol.fom.dim,
              (candidatesOf demoLibs demoReductorTol 0)[k].network⟩)) :=
  ⟨rfl, rfl, reduce_tol_first_hit_or_none demoReductorTol demoLibs 0 1 rfl⟩

/-- C5: with ann_mse set to None, reduce always returns a reduced order
model (never the none sentinel); the selected network is one of the
trained candidates and has the best validation loss among them. -/
theorem reduce_noTol_always_model
    (red : NeuralNetworkReductor) (libs : ExternalLibs) (restarts : ℕ)
    (h : red.ann_mse = AnnMse.noTol) :
    ∃ rom, (red.reduce libs restarts).1 = some rom ∧
      rom.reduced_basis = basisOf libs red ∧
      ∃ c ∈ candidatesOf libs red restarts,
        rom.network = c.network ∧
        ∀ c2 ∈ candidatesOf libs red restarts, c.val_loss ≤ c2.val_loss := by
  obtain ⟨c, hc⟩ :
      ∃ c, (candidatesOf libs red restarts).argmin (fun c => c.val_loss) = some c := by
    cases hargmin : (candidatesOf libs red restarts).argmin (fun c => c.val_loss) with
    | none =>
      exfalso
      have hnil := List.argmin_eq_none.mp hargmin
      have : (candidatesOf libs red restarts).length = restarts + 1 := by
        simp [candidatesOf, candidates]
      rw [hnil] at this
      simp at this
    | some c => exact ⟨c, rfl⟩
  refine ⟨⟨basisOf libs red, red.fom.dim, c.network⟩, ?_, rfl, c,
    List.argmin_mem (Option.mem_def.mpr hc), rfl, ?_⟩
  · simp only [NeuralNetworkReductor.reduce, h, hc]
    rfl
  · intro c2 hc2
    exact List.le_of_mem_argmin hc2 (Option.mem_def.mpr hc)

/-- C5 witness: the guarantee applied to a concrete reductor with
ann_mse set to None. -/
theorem reduce_noTol_always_model_witness :
    demoReductorNone.ann_mse = AnnMse.noTol ∧
    (∃ rom, (demoReductorNone.reduce demoLibs 0).1 = some rom ∧
      rom.reduced_basis = basisOf demoLibs demoReductorNone ∧
      ∃ c ∈ candidatesOf demoLibs demoReductorNone 0,
        rom.network = c.network ∧
        ∀ c2 ∈ candidatesOf demoLibs demoReductorNone 0, c.val_loss ≤ c2.val_loss) :=
  ⟨rfl, reduce_noTol_always_model demoReductorNone demoLibs 0 rfl⟩

/-- C4: the surrogate construction is non-intrusive: reduce returns the
full-order model unchanged, and its result depends on the full-order
model only through the black-box solve map (and the dimension of the
solution space), never through the operators internal to the solver. -/
theorem reduce_non_intrusive
    (red : NeuralNetworkReductor) (libs : ExternalLibs) (restarts : ℕ)
    (g : FullOrderModel)
    (hsolve : g.solve = red.fom.solve) (hdim : g.dim = red.fom.dim) :
    (red.reduce libs restarts).2 = red.fom ∧
    (({ red with fom := g } : NeuralNetworkReductor).reduce libs restarts).1
      = (red.reduce libs restarts).1 := by
  refine ⟨rfl, ?_⟩
  simp only [NeuralNetworkReductor.reduce, candidatesOf, candidates, reducedData,
    validationData, basisOf, basisErrOf, hsolve, hdim]

/-- A full-order model with the same solve map and dimension as demoFom
but different internal operators. -/
def demoFomAlt : FullOrderModel := ⟨fun mu => [mu], 1, [fun v => v]⟩

/-- C4 witness: non-intrusiveness applied to a concrete reductor and a
concrete model differing only in its internal operators. -/
theorem reduce_non_intrusive_witness :
    demoFomAlt.solve = demoReductorTol.fom.solve ∧
    demoFomAlt.dim = demoReductorTol.fom.dim ∧
    ((demoReductorTol.reduce demoLibs 2).2 = demoReductorTol.fom ∧
      (({ demoReductorTol with fom := demoFomAlt } : NeuralNetworkReductor).reduce
          demoLibs 2).1
        = (demoReductorTol.reduce demoLibs 2).1) :=
  ⟨rfl, rfl, reduce_non_intrusive demoReductorTol demoLibs 2 demoFomAlt rfl rfl⟩

/-! ## Error computation of the test loop

This part embeds the code of the tutorial cells directly: the arrays U
and U_red of full and reconstructed reduced solutions, the elementwise
array operations of the vector-array interface, and the numpy average.
Solution entries are real numbers. -/

/-- A solution vector of the full-order solution space. -/
abbrev RVec := List ℝ

/-- Componentwise difference of two solution vectors. -/
def rvecSub (u v : RVec) : RVec := List.zipWith (· - ·) u v

/-- The l2 norm of a solution vector. -/
noncomputable def l2_norm (u : RVec) : ℝ := Real.sqrt ((u.map fun x => x * x).sum)

/-- Elementwise difference of two vector arrays, as in U - U_red. -/
def arrSub (U V : List RVec) : List RVec := List.zipWith rvecSub U V

/-- Elementwise l2 norm of a vector array, as in A.l2_norm(). -/
noncomputable def arr_l2_norm (U : List RVec) : List ℝ := U.map l2_norm

/-- absolute_errors = (U - U_red).l2_norm() -/
noncomputable def absolute_errors (U Ured : List RVec) : List ℝ :=
  arr_l2_norm (arrSub U Ured)

/-- relative_errors = (U - U_red).l2_norm() / U.l2_norm() -/
noncomputable def relative_errors (U Ured : List RVec) : List ℝ :=
  List.zipWith (· / ·) (arr_l2_norm (arrSub U Ured)) (arr_l2_norm U)

/-- np.average of a list: its arithmetic mean. -/
noncomputable def np_average (l : List ℝ) : ℝ := l.sum / l.length

/-- C6: wherever the full solution has nonzero l2 norm, multiplying the
computed relative error by that norm recovers the computed absolute
error; the absolute error is the l2 norm of the difference of full and
reduced solutions; and the reported averages are the arithmetic means of
the per-parameter values. -/
theorem relative_error_times_norm_eq_absolute_error
    (U Ured : List RVec) (i : ℕ) (hU : i < U.length) (hV : i < Ured.length)
    (hnorm : l2_norm (U.getD i []) ≠ 0) :
    (relative_errors U Ured).getD i 0 * l2_norm (U.getD i [])
        = (absolute_errors U Ured).getD i 0 ∧
    (absolute_errors U Ured).getD i 0 = l2_norm (rvecSub (U.getD i []) (Ured.getD i [])) ∧
    np_average (absolute_errors U Ured)
        = (absolute_errors U Ured).sum / (absolute_errors U Ured).length ∧
    np_average (relative_errors U Ured)
        = (relative_errors U Ured).sum / (relative_errors U Ured).length := by
  have hsub : i < (arrSub U Ured).length := by
    simpa [arrSub] using ⟨hU, hV⟩
  have habslen : i < (absolute_errors U Ured).length := by
    simpa [absolute_errors, arr_l2_norm] using hsub
  have hUnorm : i < (arr_l2_norm U).length := by
    simpa [arr_l2_norm] using hU
  have habs : (absolute_errors U Ured).getD i 0
      = l2_norm (rvecSub (U.getD i []) (Ured.getD i [])) := by
    rw [List.getD_eq_getElem _ _ habslen]
    simp only [absolute_errors, arr_l2_norm, arrSub, List.getElem_map, List.getElem_zipWith]
    rw [List.getD_eq_getElem _ _ hU, List.getD_eq_getElem _ _ hV]
  have hrellen : i < (relative_errors U Ured).length := by
    simp only [relative_errors, List.length_zipWith, lt_min_iff]
    exact ⟨habslen, hUnorm⟩
  have hrel : (relative_errors U Ured).getD i 0
      = (absolute_errors U Ured).getD i 0 / l2_norm (U.getD i []) := by
    rw [List.getD_eq_getElem _ _ hrellen, List.getD_eq_getElem _ _ habslen]
    simp only [relative_errors, absolute_errors, arr_l2_norm, List.getElem_zipWith,
      List.getElem_map]
    rw [List.getD_eq_getElem _ _ hU]
  refine ⟨?_, habs, rfl, rfl⟩
  rw [hrel]
  exact div_mul_cancel₀ _ hnorm

/-- C6 witness: the identities at a concrete pair of one-vector arrays. -/
theorem relative_error_times_norm_eq_absolute_error_witness :
    l2_norm (([[(1 : ℝ)]] : List RVec).getD 0 []) ≠ 0 ∧
    ((relative_errors [[(1 : ℝ)]] [[0]]).getD 0 0
          * l2_norm (([[(1 : ℝ)]] : List RVec).getD 0 [])
        = (absolute_errors [[(1 : ℝ)]] [[0]]).getD 0 0 ∧
      (absolute_errors [[(1 : ℝ)]] [[0]]).getD 0 0
        = l2_norm (rvecSub (([[(1 : ℝ)]] : List RVec).getD 0 [])
            (([[(0 : ℝ)]] : List RVec).getD 0 [])) ∧
      np_average (absolute_errors [[(1 : ℝ)]] [[0]])
        = (absolute_errors [[(1 : ℝ)]] [[0]]).sum
            / (absolute_errors [[(1 : ℝ)]] [[0]]).length ∧
      np_average (relative_errors [[(1 : ℝ)]] [[0]])
        = (relative_errors [[(1 : ℝ)]] [[0]]).sum
            / (relative_errors [[(1 : ℝ)]] [[0]]).length) := by
  have hn : l2_norm (([[(1 : ℝ)]] : List RVec).getD 0 []) ≠ 0 := by
    norm_num [l2_norm]
  exact ⟨hn, relative_error_times_norm_eq_absolute_error [[1]] [[0]] 0 (by norm_num)
    (by norm_num) hn⟩

/-! ## The analytical problem assembled in the tutorial cells -/

/-- Modelled from the spec: a coefficient of a LincombFunction as used
in the tutorial; either the ProjectionParameterFunctional onto the
single parameter mu, or a plain constant. -/
inductive ParameterFunctional
  | projection
  | const (c : ℝ)

/-- Evaluating a coefficient at a parameter value. -/
def ParameterFunctional.eval : ParameterFunctional → ℝ → ℝ
  | ParameterFunctional.projection, mu => mu
  | ParameterFunctional.const c, _ => c

/-- Modelled from the spec: a LincombFunction holds functions and
parameter-dependent coefficients and evaluates to the linear combination
of the function values weighted by the coefficient values. -/
structure LincombFunction where
  functions : List (ℝ → ℝ)
  coefficients : List ParameterFunctional

/-- Evaluation of a LincombFunction at a point x and a parameter mu. -/
def LincombFunction.eval (L : LincombFunction) (x mu : ℝ) : ℝ :=
  ((L.coefficients.zip L.functions).map fun p => p.1.eval mu * p.2 x).sum

/-- Modelled from the spec: the LineDomain of the tutorial, the unit
interval. -/
inductive DomainDescription
  | lineDomain

/-- Modelled from the spec: the StationaryProblem record assembled in
the tutorial cells, carrying the data functions and an optional name. -/
structure StationaryProblem where
  domain : DomainDescription
  rhs : ℝ → ℝ
  diffusion : LincombFunction
  dirichlet_data : ℝ → ℝ
  name : Option String

namespace V000

/-- The problem of the first tutorial version (src/unnamed/part_000,
lines 90 to 104), with the diffusion LincombFunction built inline and no
name given. -/
noncomputable def problem : StationaryProblem where
  domain := DomainDescription.lineDomain
  rhs := fun x => (x - 0.5) ^ 2 * 1000
  diffusion :=
    ⟨[fun x => 1 - x, fun x => x],
      [ParameterFunctional.projection, ParameterFunctional.const 1]⟩
  dirichlet_data := fun _ => 0
  name := none

end V000

namespace V001

/-- N = 100 -/
def N : ℕ := 100

/-- f = ExpressionFunction of (x - 0.5)**2 * 1000 -/
noncomputable def f : ℝ → ℝ := fun x => (x - 0.5) ^ 2 * 1000

/-- d0 = ExpressionFunction of 1 - x -/
def d0 : ℝ → ℝ := fun x => 1 - x

/-- d1 = ExpressionFunction of x -/
def d1 : ℝ → ℝ := fun x => x

/-- v0 = ProjectionParameterFunctional of mu -/
def v0 : ParameterFunctional := ParameterFunctional.projection

/-- v1 = 1. -/
def v1 : ParameterFunctional := ParameterFunctional.const 1

/-- diffusion = LincombFunction([d0, d1], [v0, v1]) -/
def diffusion : LincombFunction := ⟨[d0, d1], [v0, v1]⟩

/-- The problem of the second tutorial version (src/unnamed/part_001,
lines 105 to 111), built step by step and named 1DProblem. -/
noncomputable def problem : StationaryProblem where
  domain := DomainDescription.lineDomain
  rhs := f
  diffusion := diffusion
  dirichlet_data := fun _ => 0
  name := some "1DProblem"

end V001

/-- The mathematical content of a stationary problem: every field except
the name metadata. -/
structure MathProblemData where
  domain : DomainDescription
  rhs : ℝ → ℝ
  diffusion : LincombFunction
  dirichlet_data : ℝ → ℝ

/-- The mathematical data of a problem. -/
def StationaryProblem.mathData (p : StationaryProblem) : MathProblemData :=
  ⟨p.domain, p.rhs, p.diffusion, p.dirichlet_data⟩

/-- Modelled from the spec: the model produced by
discretize_stationary_cg is determined by the mathematical problem data
and the mesh diameter; the spec describes the discretization of the
stated mathematical problem with the given diameter and attaches no
further inputs to it. -/
structure DiscretizedModel where
  problemData : MathProblemData
  diameter : ℚ

/-- fom, _ = discretize_stationary_cg(problem, diameter) -/
def discretize_stationary_cg (p : StationaryProblem) (diameter : ℚ) : DiscretizedModel :=
  ⟨p.mathData, diameter⟩

/-- The data function sigma(x, mu) = (1 - x) * mu + x stated in the
problem description of the tutorial. -/
def sigma (x mu : ℝ) : ℝ := (1 - x) * mu + x

/-- C7: for every x in (0, 1) and every parameter mu, the diffusion
LincombFunction of the tutorial evaluates to (1 - x) * mu + x, the
parameter functional multiplying the 1 - x term and the constant
coefficient 1 multiplying the x term. -/
theorem diffusion_eval_eq_sigma (x mu : ℝ) (hx0 : 0 < x) (hx1 : x < 1) :
    V000.problem.diffusion.eval x mu = sigma x mu ∧
    V000.problem.diffusion.eval x mu
      = ParameterFunctional.projection.eval mu * (1 - x)
          + (ParameterFunctional.const 1).eval mu * x := by
  constructor <;>
    simp [V000.problem, LincombFunction.eval, ParameterFunctional.eval, sigma] <;>
    ring

/-- C7 witness: the evaluation identity at x = 1/2 inside the domain and
mu = 3. -/
theorem diffusion_eval_eq_sigma_witness :
    (0 : ℝ) < 1 / 2 ∧ (1 : ℝ) / 2 < 1 ∧
    (V000.problem.diffusion.eval (1 / 2) 3 = sigma (1 / 2) 3 ∧
      V000.problem.diffusion.eval (1 / 2) 3
        = ParameterFunctional.projection.eval 3 * (1 - 1 / 2)
            + (ParameterFunctional.const 1).eval 3 * (1 / 2)) :=
  ⟨by norm_num, by norm_num,
    diffusion_eval_eq_sigma (1 / 2) 3 (by norm_num) (by norm_num)⟩

/-- C8: the inline construction of the first tutorial version and the
step-by-step construction of the second define the same mathematical
problem; they differ only in the assigned name, and discretizing both
with mesh diameter 1/100 = 1./N yields equal discretized models. -/
theorem problems_agree_and_discretized_models_equal :
    V000.problem.mathData = V001.problem.mathData ∧
    V000.problem.name = none ∧
    V001.problem.name = some "1DProblem" ∧
    discretize_stationary_cg V000.problem (1 / 100)
      = discretize_stationary_cg V001.problem (1 / (V001.N : ℚ)) := by
  refine ⟨rfl, rfl, rfl, ?_⟩
  have h : (1 / (V001.N : ℚ)) = 1 / 100 := by norm_num [V001.N]
  rw [h]
  rfl

/-! ## The call sequence of the tutorial workflow

The tutorial cells execute a fixed sequence of interface calls.  The
sequence is embedded as a trace in source order, and the discipline the
claim describes is a decidable predicate over traces. -/

/-- One operation of the tutorial workflow.  romSolve and
reconstructApplied carry a tag identifying the reduced-coordinate value:
romSolve produces the value, reconstructApplied consumes it. -/
inductive WorkflowStep
  | discretize
  | sampleTraining
  | sampleValidation
  | constructReductor
  | reduceReturns
  | fomSolve
  | romSolve (tag : ℕ)
  | reconstructApplied (tag : ℕ)
  | visualize
  | computeErrors

/-- The state threaded through the workflow check: whether the reductor
has been constructed, whether reduce has returned a model, and the tags
of the reduced-coordinate values produced so far. -/
structure WorkflowState where
  reductorBuilt : Bool
  reduceReturned : Bool
  solvedTags : List ℕ

/-- Whether a step is legal in a given state: reduce requires the
reductor to exist, rom.solve requires reduce to have returned a model,
and reconstruct requires reduce to have returned and its argument to be
a value previously returned by rom.solve. -/
def stepOk (s : WorkflowState) : WorkflowStep → Bool
  | WorkflowStep.constructReductor => true
  | WorkflowStep.reduceReturns => s.reductorBuilt
  | WorkflowStep.romSolve _ => s.reduceReturned
  | WorkflowStep.reconstructApplied t => s.reduceReturned && s.solvedTags.contains t
  | _ => true

/-- The state after a step. -/
def stepNext (s : WorkflowState) : WorkflowStep → WorkflowState
  | WorkflowStep.constructReductor => { s with reductorBuilt := true }
  | WorkflowStep.reduceReturns => { s with reduceReturned := true }
  | WorkflowStep.romSolve t => { s with solvedTags := t :: s.solvedTags }
  | _ => s

/-- Checking a trace from a given state. -/
def checkFrom (s : WorkflowState) : List WorkflowStep → Bool
  | [] => true
  | e :: es => stepOk s e && checkFrom (stepNext s e) es

/-- A trace follows the fixed call sequence of the interface. -/
def wellFormedWorkflow (tr : List WorkflowStep) : Bool :=
  checkFrom ⟨false, false, []⟩ tr

/-- The trace of the tutorial script in source order: discretization,
sampling of the training and validation sets, reductor construction,
reduce, the first solve and reconstruction with visualization, the test
loop over the ten test parameters, and the error computation. -/
def tutorialTrace : List WorkflowStep :=
  [WorkflowStep.discretize, WorkflowStep.sampleTraining, WorkflowStep.sampleValidation,
    WorkflowStep.constructReductor, WorkflowStep.reduceReturns,
    WorkflowStep.fomSolve, WorkflowStep.romSolve 0, WorkflowStep.reconstructApplied 0,
    WorkflowStep.visualize]
  ++ (List.range 10).flatMap (fun k =>
      [WorkflowStep.fomSolve, WorkflowStep.romSolve (k + 1),
        WorkflowStep.reconstructApplied (k + 1)])
  ++ [WorkflowStep.computeErrors]

/-- C9: the tutorial workflow follows the fixed call sequence of the
interface: the reductor is constructed before reduce, reduced
coordinates are produced only by rom.solve after reduce has returned a
model, and reconstruct is applied only to values returned by rom.solve,
never before reduce has returned. -/
theorem tutorial_workflow_well_formed : wellFormedWorkflow tutorialTrace = true := by
  decide
